import Mathlib

/-!
Verification of the wml runtime (View/registry engine, content builders and
template expression helpers) against its natural-language specification.

The definitions below are a shallow embedding of `src/index.ts` (the current
snapshot) and, where a claim also concerns the earlier compiled snapshot
(`part_001`), of that variant as well.  JavaScript objects used as string-keyed
dictionaries (`this.ids`, `this.groups`, attribute bags, switch case maps) are
modelled as insertion-ordered association lists; DOM nodes are modelled as a
value tree with DocumentFragment splicing on appendChild; exceptions are
modelled with `Except` / an explicit error component.
-/

namespace Wml

/-! ## JavaScript dictionaries (insertion-ordered string-keyed objects) -/

/-- The JavaScript `m.hasOwnProperty(k)` test on an object modelled as an association list. -/
def hasKey {α : Type} (m : List (String × α)) (k : String) : Bool :=
  m.any (fun p => p.1 == k)

/-- Property read `m[k]`: the value bound to `k`, or absent. -/
def getKey {α : Type} (m : List (String × α)) (k : String) : Option α :=
  match m with
  | [] => none
  | (k', v) :: rest => if k' == k then some v else getKey rest k

/-- Property write `m[k] = v`: updates an existing binding in place, otherwise appends
(JavaScript objects keep insertion order for string keys). -/
def setKey {α : Type} (m : List (String × α)) (k : String) (v : α) :
    List (String × α) :=
  match m with
  | [] => [(k, v)]
  | (k', v') :: rest =>
      if k' == k then (k, v) :: rest else (k', v') :: setKey rest k v

theorem getKey_setKey_self {α : Type} (m : List (String × α)) (k : String) (v : α) :
    getKey (setKey m k v) k = some v := by
  induction m with
  | nil => simp [getKey, setKey]
  | cons p rest ih =>
      obtain ⟨k', v'⟩ := p
      by_cases h : k' = k
      · simp [getKey, setKey, h]
      · simp [getKey, setKey, h, ih]

theorem getKey_setKey_ne {α : Type} (m : List (String × α)) (k k' : String) (v : α)
    (h : k' ≠ k) : getKey (setKey m k v) k' = getKey m k' := by
  induction m with
  | nil => simp [getKey, setKey, Ne.symm h]
  | cons p rest ih =>
      obtain ⟨k₀, v₀⟩ := p
      by_cases h0 : k₀ = k
      · subst h0
        simp [getKey, setKey, Ne.symm h]
      · simp [getKey, setKey, h0, ih]

theorem hasKey_setKey_self {α : Type} (m : List (String × α)) (k : String) (v : α) :
    hasKey (setKey m k v) k = true := by
  induction m with
  | nil => simp [hasKey, setKey]
  | cons p rest ih =>
      obtain ⟨k₀, v₀⟩ := p
      by_cases h0 : k₀ = k
      · simp [hasKey, setKey, h0]
      · simp only [setKey]
        rw [if_neg (by simp [h0])]
        simp only [hasKey, List.any_cons] at ih ⊢
        simp [ih]

theorem hasKey_setKey_ne {α : Type} (m : List (String × α)) (k k' : String) (v : α)
    (h : k' ≠ k) : hasKey (setKey m k v) k' = hasKey m k' := by
  induction m with
  | nil => simp [hasKey, setKey, Ne.symm h]
  | cons p rest ih =>
      obtain ⟨k₀, v₀⟩ := p
      by_cases h0 : k₀ = k
      · subst h0
        simp [hasKey, setKey, Ne.symm h]
      · simp only [setKey]
        rw [if_neg (by simp [h0])]
        simp only [hasKey, List.any_cons] at ih ⊢
        simp [ih]

theorem hasKey_iff_getKey_isSome {α : Type} (m : List (String × α)) (k : String) :
    hasKey m k = true ↔ (getKey m k).isSome = true := by
  induction m with
  | nil => simp [hasKey, getKey]
  | cons p rest ih =>
      obtain ⟨k₀, v₀⟩ := p
      by_cases h0 : k₀ = k
      · simp [hasKey, getKey, h0]
      · simp only [hasKey, List.any_cons] at ih ⊢
        simp [getKey, h0, ih, beq_iff_eq]

/-! ## DOM model

`DomNode` models the DOM values the runtime produces: elements (with string
attributes set via `setAttribute`, function-valued properties attached via
`e[key] = f`, and child nodes), text nodes, and document fragments.  Functions
are identified by an opaque numeric tag. -/

inductive DomNode : Type where
  | element (tag : String) (attrs : List (String × String))
      (handlers : List (String × Nat)) (children : List DomNode)
  | textNode (s : String)
  | fragment (children : List DomNode)

/-- The DOM operation `parent.appendChild(n)`: appending a DocumentFragment splices its child
list into the parent; any other node is appended as a single child. -/
def appendChild (cs : List DomNode) (n : DomNode) : List DomNode :=
  match n with
  | .fragment ns => cs ++ ns
  | n => cs ++ [n]

/-- A JavaScript runtime value as it can appear as a child argument during
element construction (`adopt`) or in attribute bags. -/
inductive JsVal : Type where
  | str (s : String)
  | num (n : Int)
  | boolV (b : Bool)
  | node (n : DomNode)
  | arr (xs : List JsVal)
  | nullV
  | undef
  | funcV (f : Nat)

/-- Errors thrown by the runtime, distinguished by kind. -/
inductive JsErr : Type where
  /-- The `Error` with message `Duplicate id ... detected!` thrown by `AppView.register`. -/
  | duplicateId (id : String)
  /-- A TypeError raised by the JavaScript engine or the DOM itself, e.g.
  reading a property of `undefined`, or `appendChild` with a non-Node value. -/
  | jsTypeError
  /-- The `ReferenceError('Cannot invalidate a view that has not been rendered!')`. -/
  | notRendered
  /-- The `ReferenceError('Attempt to invalidate a view that has not been inserted to DOM!')`. -/
  | notAttached
  /-- The explicit `throw new TypeError('Can not adopt child ...')` in `adopt`. -/
  | adoptionError
deriving DecidableEq, Repr

/-- Function `adopt` from `src/index.ts` (current snapshot), operating on the child list
of the node being built.  The source is a `switch (typeof child)`:

* the `'string'`, `'number'`, `'boolean'` group appends a fresh text node and
  then — there is no `break` — falls through into the `'object'` case, where
  `e.appendChild(<Node>child)` is executed with `child` still being the raw
  primitive, which the DOM rejects with a TypeError;
* `'object'` covers built nodes (appended as-is), but also `null` and arrays
  (`typeof` is `'object'` for both), for which `appendChild` again throws a
  TypeError since they are not Nodes;
* the `default` branch (`undefined`, functions, ...) throws the explicit
  `TypeError('Can not adopt child ...')`. -/
def adopt (child : JsVal) (cs : List DomNode) : Except JsErr (List DomNode) :=
  match child with
  | .str _ | .num _ | .boolV _ => .error .jsTypeError
  | .node n => .ok (appendChild cs n)
  | .nullV => .error .jsTypeError
  | .arr _ => .error .jsTypeError
  | .undef | .funcV _ => .error .adoptionError

mutual

/-- Function `adopt` from the earlier compiled snapshot (`part_001`): arrays are
flattened recursively, falsy children (`null`, `undefined`, `''`, `0`, `false`)
are skipped, objects are appended as-is and remaining (truthy) primitives
become text children.  Stringification of numbers/booleans is modelled with
`toString`. -/
def adoptV1 (child : JsVal) (cs : List DomNode) : List DomNode :=
  match child with
  | .arr xs => adoptV1All xs cs
  | .nullV | .undef => cs
  | .str s => if s = "" then cs else appendChild cs (.textNode s)
  | .num n => if n = 0 then cs else appendChild cs (.textNode (toString n))
  | .boolV b => if b then appendChild cs (.textNode "true") else cs
  | .node n => appendChild cs n
  | .funcV _ => cs

/-- The loop `child.forEach(innerChild => adopt(innerChild, e))`. -/
def adoptV1All (xs : List JsVal) (cs : List DomNode) : List DomNode :=
  match xs with
  | [] => cs
  | x :: rest => adoptV1All rest (adoptV1 x cs)

end

/-! ## Expression helpers -/

/-- Function `switchE` from `src/index.ts`: looks up `cases[value]` and
`cases['default']`, and returns the first one that is present (the bound case
values are thunks, hence truthy when present).  Note that the source returns
the looked-up value itself; it never invokes it. -/
def switchE {α : Type} (value : String) (cases : List (String × α)) : Option α :=
  let result := getKey cases value
  let defaul := getKey cases "default"
  if result.isSome then result
  else if defaul.isSome then defaul
  else none

/-- The `index`/key argument a `forE` callback receives: a numeric array index
or a string object key. -/
inductive SIdx : Type where
  | num (n : Nat)
  | str (s : String)
deriving DecidableEq, Repr

/-- A `forE` collection: a JavaScript array or a keyed object (modelled as an
association list with distinct keys, enumerated in insertion order, as
`Object.keys` does for string keys). -/
inductive JsColl (V : Type) : Type where
  | arr (xs : List V)
  | obj (kvs : List (String × V))
deriving DecidableEq, Repr

/-- Function `forE` from `src/index.ts`: a fresh DocumentFragment is created; for a
non-empty array every element is visited in order by
`collection.forEach((v, k, a) => frag.appendChild(cb(v, k, a)))`; for a
non-empty object every own enumerable key is visited in order; when the
collection is empty the fragment receives `cb2()` instead.  The fragment is
returned. -/
def forE {V : Type} (collection : JsColl V)
    (cb : V → SIdx → JsColl V → DomNode) (cb2 : Unit → DomNode) : DomNode :=
  match collection with
  | .arr xs =>
      if xs.length > 0 then
        .fragment ((xs.enum).foldl
          (fun acc p => appendChild acc (cb p.2 (.num p.1) (.arr xs))) [])
      else
        .fragment (appendChild [] (cb2 ()))
  | .obj kvs =>
      if (kvs.map Prod.fst).length > 0 then
        .fragment (kvs.foldl
          (fun acc p => appendChild acc (cb p.2 (.str p.1) (.obj kvs))) [])
      else
        .fragment (appendChild [] (cb2 ()))

/-- Function `ifE` from `src/index.ts`: evaluates exactly one branch thunk. -/
def ifE {P : Type} (truthy : P → Bool) (predicate : P)
    (positive : Unit → DomNode) (negative : Unit → DomNode) : DomNode :=
  if truthy predicate then positive () else negative ()

/-! ## Attribute reading -/

/-- A JSON-like attribute bag value.  `null` is a present-but-null value;
absence is expressed with `Option` at the reading boundary. -/
inductive JVal : Type where
  | str (s : String)
  | num (n : Int)
  | boolV (b : Bool)
  | obj (kvs : List (String × JVal))
  | null

/-- Split a character list at every occurrence of `':'` or `'.'`. -/
def splitSegs (cs : List Char) : List (List Char) :=
  match cs with
  | [] => [[]]
  | c :: rest =>
      let r := splitSegs rest
      if c = ':' ∨ c = '.' then [] :: r
      else
        match r with
        | s :: ss => (c :: s) :: ss
        | [] => [[c]]

/-- The segments `property-seek` descends after `read` has rewritten the
path with `path.split(':').join('.')`: splitting on `':'`, joining with
`'.'` and splitting on `'.'` again is exactly splitting on either
delimiter. -/
def pathSegs (path : String) : List String :=
  (splitSegs path.toList).map (fun l => String.mk l)

/-- Modelled from the spec: the attribute-path resolver (`property-seek`) is an
external collaborator, "treated as a black-box read property path, return
default on miss" that "must never raise on a missing intermediate segment —
absence anywhere in the path is equivalent to absence of the leaf".  It
descends the bag segment by segment and reports absence as `none`. -/
def propertyGet (segs : List String) (o : JVal) : Option JVal :=
  match segs with
  | [] => some o
  | k :: rest =>
      match o with
      | .obj kvs =>
          match getKey kvs k with
          | some v => propertyGet rest v
          | none => none
      | _ => none

/-- Function `read` from `src/index.ts`:
`ret = property.get(path.split(':').join('.'), o); return (ret != null) ? ret
: defaultValue;` — a JavaScript `!= null` test is false for both `null` and
`undefined`, so a present-but-null value also falls back to `defaultValue`,
and a missing `defaultValue` (`none`) leaves the result `undefined`. -/
def read (path : String) (o : JVal) (defaultValue : Option JVal) : Option JVal :=
  match propertyGet (pathSegs path) o with
  | some JVal.null => defaultValue
  | some v => some v
  | none => defaultValue

/-- Method `Attributes.read` from the earlier compiled snapshot (`part_001`):
`return (ret != null) ? ret : (defaultValue != null) ? defaultValue : '';` —
like `read`, except that a missing (or null) `defaultValue` yields the empty
string. -/
def attributesRead (path : String) (attrs : JVal) (defaultValue : Option JVal) :
    Option JVal :=
  match propertyGet (pathSegs path) attrs with
  | some JVal.null | none =>
      match defaultValue with
      | some JVal.null | none => some (JVal.str "")
      | some dv => some dv
  | some v => some v

/-! ## The View / registry engine -/

/-- A `WMLElement` is either DOM content or a widget instance.  Widget
instances are identified by the order in which `new Constructor(...)` ran
(a fresh allocation counter models JavaScript object identity). -/
inductive WMLElement : Type where
  | content (c : DomNode)
  | widgetRef (w : Nat)

/-- The mutable state of an `AppView`: the identifier registry `ids`, the
group registry `groups`, the live widget list `widgets`, the rendered `tree`,
the `_fragRoot` shortcut, and the allocation counter `fresh` modelling
JavaScript object identity of widget instances. -/
structure ViewState : Type where
  ids : List (String × WMLElement)
  groups : List (String × List WMLElement)
  widgets : List Nat
  tree : Option DomNode
  fragRoot : Option DomNode
  fresh : Nat

/-- A freshly constructed `AppView`: empty registries, no widgets, no tree. -/
def initView : ViewState :=
  { ids := [], groups := [], widgets := [], tree := none, fragRoot := none,
    fresh := 0 }

/-- Method `AppView.register`: throws `Duplicate id` when `this.ids.hasOwnProperty(id)`,
otherwise stores the binding and returns `this`.  The returned state is the
object's state when the call finishes (by throw or by return); the throw
happens before any assignment. -/
def register (id : String) (w : WMLElement) (s : ViewState) :
    ViewState × Option JsErr :=
  if hasKey s.ids id then (s, some (.duplicateId id))
  else ({ s with ids := setKey s.ids id w }, none)

/-- Method `AppView.registerGroup`: `this.groups[group] = this.groups[group] || [];
this.groups[group].push(e);` — appends, creating the list on first use. -/
def registerGroup (g : String) (e : WMLElement) (s : ViewState) : ViewState :=
  let cur := (getKey s.groups g).getD []
  { s with groups := setKey s.groups g (cur ++ [e]) }

/-- Method `AppView.findById`: `(this.ids[id]) ? this.ids[id] : null` — registered
values are objects (DOM nodes or widget instances), hence truthy, so this is
a plain lookup with `none` for `null`. -/
def findById (s : ViewState) (id : String) : Option WMLElement :=
  getKey s.ids id

/-- A sequence of chained `register` calls; a thrown exception aborts the
remainder of the sequence. -/
def registerAll (ps : List (String × WMLElement)) (s : ViewState) :
    ViewState × Option JsErr :=
  match ps with
  | [] => (s, none)
  | (id, w) :: rest =>
      match register id w s with
      | (s', none) => registerAll rest s'
      | (s', some e) => (s', some e)

/-! ## Element construction (`node`) -/

/-- A value in the `html` attribute namespace of an element:
`string | number | boolean | Function`. -/
inductive HtmlVal : Type where
  | strV (s : String)
  | numV (n : Int)
  | boolV (b : Bool)
  | funcV (f : Nat)
deriving DecidableEq, Repr

/-- One iteration of the `Object.keys(attributes['html']).forEach` loop in
`node`: functions are attached as properties (`e[key] = value`), non-empty
strings are set as attributes, the empty string is suppressed
(`if (value !== '')`), booleans are set stringified; numbers match no branch
and are dropped.  The accumulator is the element's
(attributes, handler-properties) pair. -/
def buildHtmlStep (acc : List (String × String) × List (String × Nat))
    (kv : String × HtmlVal) :
    List (String × String) × List (String × Nat) :=
  match kv.2 with
  | .funcV f => (acc.1, setKey acc.2 kv.1 f)
  | .strV sv => if sv = "" then acc else (setKey acc.1 kv.1 sv, acc.2)
  | .boolV b => (setKey acc.1 kv.1 (if b then "true" else "false"), acc.2)
  | .numV _ => acc

/-- The whole `html` attribute loop of `node`, over the keys in insertion
order. -/
def buildHtml (html : List (String × HtmlVal)) :
    List (String × String) × List (String × Nat) :=
  html.foldl buildHtmlStep ([], [])

/-- The loop `children.forEach(c => adopt(c, e))` with exception propagation. -/
def adoptAll (children : List JsVal) (cs : List DomNode) :
    Except JsErr (List DomNode) :=
  match children with
  | [] => .ok cs
  | c :: rest =>
      match adopt c cs with
      | .ok cs' => adoptAll rest cs'
      | .error e => .error e

/-- The statement `if (group) view.registerGroup(group, e)` for the produced element or
widget. -/
def regGroupIf (e : WMLElement) (wgrp : Option String) (s : ViewState) :
    ViewState :=
  match wgrp with
  | some g => registerGroup g e s
  | none => s

/-- The statement `if (id) view.register(id, e)` for the produced element or widget. -/
def regIdIf (e : WMLElement) (wid : Option String) (s : ViewState) :
    ViewState × Option JsErr :=
  match wid with
  | some id => register id e s
  | none => (s, none)

/-- Function `node` from `src/index.ts`: creates `document.createElement(tag)`, applies
the `html` attribute map, adopts the children, then registers the element
under `attributes.wml.id` / `attributes.wml.group` when those are set (a
truthy id/group is modelled as `some`).  A `Duplicate id` exception from
`register` propagates. -/
def nodeF (tag : String) (html : List (String × HtmlVal))
    (wid wgrp : Option String) (children : List JsVal) (s : ViewState) :
    Except JsErr (ViewState × DomNode) :=
  match adoptAll children [] with
  | .error e => .error e
  | .ok cs =>
      match regIdIf
          (.content (DomNode.element tag (buildHtml html).1 (buildHtml html).2 cs))
          wid s with
      | (_, some err) => .error err
      | (s', none) =>
          .ok (regGroupIf
                (.content (DomNode.element tag (buildHtml html).1 (buildHtml html).2 cs))
                wgrp s',
              DomNode.element tag (buildHtml html).1 (buildHtml html).2 cs)

/-! ## Templates and the render pass

A compiled template is a function `(view, context) -> Content` whose body is a
call tree into `text`/`node`/`widget` (the expression helpers `ifE`, `forE`,
`switchE` only select which such sub-tree is evaluated).  `Tpl` is that class
of call trees; `TplL` is a list of sibling sub-trees (argument lists are
evaluated left to right). -/

/-- Lifecycle events observed while rendering: a widget's `removed` hook ran,
a widget instance was constructed (`new Constructor(...)`), or a widget's
`rendered` hook ran. -/
inductive Ev : Type where
  | removed (w : Nat)
  | constructed (w : Nat)
  | rendered (w : Nat)
deriving DecidableEq, Repr

mutual

/-- A compiled template call tree: a text node, a `node(tag, attrs, children,
view)` call, a `widget(Constructor, attrs, children, view)` call (whose
instance's `render()` is modelled as wrapping its children in an element —
widgets receive only their attributes and children, never the outer view), or
an `ifE` branch selection. -/
inductive Tpl : Type where
  | text (s : String)
  | elem (tag : String) (html : List (String × HtmlVal))
      (wid wgrp : Option String) (children : TplL)
  | widgetT (wid wgrp : Option String) (children : TplL) (wtag : String)
  | ifT (cond : Bool) (pos neg : Tpl)

/-- A list of sibling template sub-trees. -/
inductive TplL : Type where
  | nil
  | cons (hd : Tpl) (tl : TplL)

end

/-- Function `widget` from `src/index.ts`: the (already evaluated) children are pushed
into `childs` — they are DOM nodes, never JavaScript arrays, so the one-level
array splat is the identity here; then `w = new Constructor(attributes,
childs)` constructs a fresh widget instance (the allocation counter models
object identity and a `constructed` event is recorded), the instance is
registered under `wml.id` / `wml.group` when set, pushed onto `view.widgets`,
and `w.render()` is returned. -/
def widgetF (wid wgrp : Option String) (childs : List DomNode) (wtag : String)
    (s : ViewState) : (Except JsErr (ViewState × DomNode)) × List Ev :=
  match regIdIf (.widgetRef s.fresh) wid { s with fresh := s.fresh + 1 } with
  | (_, some err) => (.error err, [Ev.constructed s.fresh])
  | (s2, none) =>
      (.ok ({ regGroupIf (.widgetRef s.fresh) wgrp s2 with
                widgets := (regGroupIf (.widgetRef s.fresh) wgrp s2).widgets
                  ++ [s.fresh] },
            DomNode.element wtag [] [] childs),
       [Ev.constructed s.fresh])

mutual

/-- Evaluation of a template call tree against a view: the `template(this,
this.context)` call inside `AppView.render`.  Returns the outcome (or the
propagated exception) together with the trace of lifecycle events. -/
def evalTpl (t : Tpl) (s : ViewState) :
    (Except JsErr (ViewState × DomNode)) × List Ev :=
  match t with
  | .text str => (.ok (s, .textNode str), [])
  | .ifT c pos neg => if c then evalTpl pos s else evalTpl neg s
  | .elem tag html wid wgrp children =>
      match evalL children s with
      | (.error e, evs) => (.error e, evs)
      | (.ok (s1, cs), evs) =>
          match nodeF tag html wid wgrp (cs.map JsVal.node) s1 with
          | .error err => (.error err, evs)
          | .ok (s2, e) => (.ok (s2, e), evs)
  | .widgetT wid wgrp children wtag =>
      match evalL children s with
      | (.error e, evs) => (.error e, evs)
      | (.ok (s1, cs), evs) =>
          match widgetF wid wgrp cs wtag s1 with
          | (.error err, wevs) => (.error err, evs ++ wevs)
          | (.ok (s2, e), wevs) => (.ok (s2, e), evs ++ wevs)

/-- Left-to-right evaluation of sibling sub-trees, threading the view state
and concatenating event traces. -/
def evalL (ts : TplL) (s : ViewState) :
    (Except JsErr (ViewState × List DomNode)) × List Ev :=
  match ts with
  | .nil => (.ok (s, []), [])
  | .cons t rest =>
      match evalTpl t s with
      | (.error e, evs) => (.error e, evs)
      | (.ok (s1, c), evs) =>
          match evalL rest s1 with
          | (.error e, evs') => (.error e, evs ++ evs')
          | (.ok (s2, cs), evs') => (.ok (s2, c :: cs), evs ++ evs')

end

/-- The start of a render pass: `this.ids = {}` (before the removed hooks),
`this.widgets = []` and `this._fragRoot = null` (after them, before template
evaluation). -/
def resetPass (s : ViewState) : ViewState :=
  { s with ids := [], widgets := [], fragRoot := none }

/-- The test `this.tree.nodeName === document.createDocumentFragment().nodeName`. -/
def isFragment : DomNode → Bool
  | .fragment _ => true
  | _ => false

/-- Property `n.firstChild`, `null` when there are no children. -/
def firstChild : DomNode → Option DomNode
  | .fragment cs => cs.head?
  | .element _ _ _ cs => cs.head?
  | .textNode _ => none

/-- Steps 4–6 of `AppView.render` after template evaluation produced `tree`:
`this.tree = ...`, then
`this.ids['root'] = (this.ids['root']) ? this.ids['root'] : this.tree`
(registered values are objects, hence truthy), then the `_fragRoot`
shortcut when the tree is a DocumentFragment. -/
def renderRoot (tree : DomNode) (s1 : ViewState) : ViewState :=
  { s1 with
    tree := some tree,
    ids := setKey s1.ids "root"
      (match getKey s1.ids "root" with
       | some v => v
       | none => WMLElement.content tree),
    fragRoot := if isFragment tree then firstChild tree else none }

/-- Method `AppView.render`:
1. `this.ids = {}`;
2. `this.widgets.forEach(w => w.removed())` — outgoing widgets, in list order;
3. `this.widgets = []`; `this._fragRoot = null`;
4. `this.tree = this.template(this, this.context)`;
5. `this.ids['root'] = (this.ids['root']) ? this.ids['root'] : this.tree`;
6. when the tree is a DocumentFragment, `this._fragRoot = this.tree.firstChild`;
7. `this.widgets.forEach(w => w.rendered())` — incoming widgets;
8. return `this.tree`.
The second component is the trace of lifecycle events of the pass. -/
def render (tpl : Tpl) (s : ViewState) :
    (Except JsErr (ViewState × DomNode)) × List Ev :=
  match evalTpl tpl (resetPass s) with
  | (.error e, tevs) => (.error e, s.widgets.map Ev.removed ++ tevs)
  | (.ok (s1, tree), tevs) =>
      (.ok (renderRoot tree s1, tree),
       s.widgets.map Ev.removed ++ tevs ++ s1.widgets.map Ev.rendered)

/-- Method `AppView.invalidate`.  Here `parentOf` is the host DOM relation giving a node's
`parentNode`.  The source is:

    var tree = (this._fragRoot) ? this._fragRoot : this.tree;
    var parent = tree.parentNode;
    if (tree == null) throw new ReferenceError('Cannot invalidate a view that has not been rendered!');
    if (tree.parentNode == null) throw new ReferenceError('Attempt to invalidate a view that has not been inserted to DOM!');
    ...
    parent.replaceChild(this.render(), realFirstChild);

When the view was never rendered, `tree` is `undefined` and the property
access `tree.parentNode` on the second line already throws a TypeError, so the
`NotRendered` ReferenceError on the third line is unreachable.  The host-side
`replaceChild` mutation is outside the view's own state and is not modelled
further. -/
def invalidate (tpl : Tpl) (s : ViewState)
    (parentOf : DomNode → Option DomNode) :
    (Except JsErr (ViewState × DomNode)) × List Ev :=
  let tree? :=
    match s.fragRoot with
    | some t => some t
    | none => s.tree
  match tree? with
  | none => (.error .jsTypeError, [])
  | some t =>
      match parentOf t with
      | none => (.error .notAttached, [])
      | some _ => render tpl s

/-! ## Invariants of a render pass -/

theorem register_preserves (id : String) (w : WMLElement) (s : ViewState) :
    (register id w s).1.widgets = s.widgets ∧ (register id w s).1.fresh = s.fresh
      ∧ (register id w s).1.groups = s.groups := by
  unfold register
  split <;> simp

theorem registerGroup_preserves (g : String) (e : WMLElement) (s : ViewState) :
    (registerGroup g e s).widgets = s.widgets
      ∧ (registerGroup g e s).fresh = s.fresh
      ∧ (registerGroup g e s).ids = s.ids := by
  simp [registerGroup]

theorem regIdIf_preserves (e : WMLElement) (wid : Option String) (s : ViewState) :
    (regIdIf e wid s).1.widgets = s.widgets ∧ (regIdIf e wid s).1.fresh = s.fresh := by
  cases wid with
  | none => exact ⟨rfl, rfl⟩
  | some id => exact ⟨(register_preserves id e s).1, (register_preserves id e s).2.1⟩

theorem regGroupIf_preserves (e : WMLElement) (wgrp : Option String) (s : ViewState) :
    (regGroupIf e wgrp s).widgets = s.widgets
      ∧ (regGroupIf e wgrp s).fresh = s.fresh
      ∧ (regGroupIf e wgrp s).ids = s.ids := by
  cases wgrp with
  | none => exact ⟨rfl, rfl, rfl⟩
  | some g => exact registerGroup_preserves g e s

theorem nodeF_ok_preserves (tag : String) (html : List (String × HtmlVal))
    (wid wgrp : Option String) (children : List JsVal) (s s' : ViewState)
    (e : DomNode) (h : nodeF tag html wid wgrp children s = .ok (s', e)) :
    s'.widgets = s.widgets ∧ s'.fresh = s.fresh := by
  unfold nodeF at h
  split at h
  · exact absurd h (by simp)
  · rename_i cs hcs
    split at h
    · exact absurd h (by simp)
    · rename_i s1 heq
      rw [Except.ok.injEq, Prod.mk.injEq] at h
      obtain ⟨hs, -⟩ := h
      have h1 := regIdIf_preserves
        (.content (DomNode.element tag (buildHtml html).1 (buildHtml html).2 cs)) wid s
      rw [heq] at h1
      have h2 := regGroupIf_preserves
        (.content (DomNode.element tag (buildHtml html).1 (buildHtml html).2 cs)) wgrp s1
      constructor
      · rw [← hs, h2.1]
        exact h1.1
      · rw [← hs, h2.2.1]
        exact h1.2

theorem widgetF_ok_shape (wid wgrp : Option String) (childs : List DomNode)
    (wtag : String) (s s2 : ViewState) (e : DomNode) (wevs : List Ev)
    (h : widgetF wid wgrp childs wtag s = (.ok (s2, e), wevs)) :
    s2.widgets = s.widgets ++ [s.fresh] ∧ wevs = [Ev.constructed s.fresh]
      ∧ s2.fresh = s.fresh + 1 := by
  unfold widgetF at h
  split at h
  · exact absurd h (by simp)
  · rename_i sr heq
    rw [Prod.mk.injEq, Except.ok.injEq, Prod.mk.injEq] at h
    obtain ⟨⟨hs, -⟩, hev⟩ := h
    have h1 := regIdIf_preserves (.widgetRef s.fresh) wid { s with fresh := s.fresh + 1 }
    rw [heq] at h1
    simp only at h1
    have h2 := regGroupIf_preserves (.widgetRef s.fresh) wgrp sr
    refine ⟨?_, hev.symm, ?_⟩
    · rw [← hs]
      simp only
      rw [h2.1, h1.1]
    · rw [← hs]
      simp only
      rw [h2.2.1, h1.2]

mutual

/-- During template evaluation the widget list only grows at the end, every
emitted event is a `constructed` event for exactly the widgets appended (in
push order), and every appended widget instance is fresh: allocated at or
after the pass's starting allocation counter. -/
theorem evalTpl_ok_shape (t : Tpl) (s s' : ViewState) (c : DomNode)
    (evs : List Ev) (h : evalTpl t s = (.ok (s', c), evs)) :
    ∃ ws, s'.widgets = s.widgets ++ ws ∧ evs = ws.map Ev.constructed
      ∧ s.fresh ≤ s'.fresh ∧ ∀ w ∈ ws, s.fresh ≤ w ∧ w < s'.fresh := by
  cases t with
  | text str =>
      simp only [evalTpl, Prod.mk.injEq, Except.ok.injEq] at h
      obtain ⟨⟨hs, -⟩, hev⟩ := h
      exact ⟨[], by simp [← hs, ← hev]⟩
  | ifT cond pos neg =>
      cases cond with
      | true =>
          simp only [evalTpl, if_true] at h
          exact evalTpl_ok_shape pos s s' c evs h
      | false =>
          simp only [evalTpl, if_false] at h
          exact evalTpl_ok_shape neg s s' c evs h
  | elem tag html wid wgrp children =>
      simp only [evalTpl] at h
      split at h
      · exact absurd h (by simp)
      · rename_i s1 cs0 evs0 heqL
        split at h
        · exact absurd h (by simp)
        · rename_i s2 e2 heqN
          rw [Prod.mk.injEq, Except.ok.injEq, Prod.mk.injEq] at h
          obtain ⟨⟨hs, -⟩, hev⟩ := h
          subst hs
          subst hev
          obtain ⟨ws, hw, hevs, hf, hb⟩ := evalL_ok_shape children s s1 cs0 evs0 heqL
          have hp := nodeF_ok_preserves tag html wid wgrp (cs0.map JsVal.node)
            s1 s2 e2 heqN
          refine ⟨ws, hp.1.trans hw, hevs, hf.trans (le_of_eq hp.2.symm), ?_⟩
          intro w hwmem
          obtain ⟨h1, h2⟩ := hb w hwmem
          exact ⟨h1, hp.2 ▸ h2⟩
  | widgetT wid wgrp children wtag =>
      simp only [evalTpl] at h
      split at h
      · exact absurd h (by simp)
      · rename_i s1 cs0 evs0 heqL
        split at h
        · exact absurd h (by simp)
        · rename_i s2 e2 wevs heqW
          rw [Prod.mk.injEq, Except.ok.injEq, Prod.mk.injEq] at h
          obtain ⟨⟨hs, -⟩, hev⟩ := h
          subst hs
          subst hev
          obtain ⟨ws, hw, hevs, hf, hb⟩ := evalL_ok_shape children s s1 cs0 evs0 heqL
          obtain ⟨hw2, hev2, hf2⟩ := widgetF_ok_shape wid wgrp cs0 wtag s1 s2 e2 wevs heqW
          refine ⟨ws ++ [s1.fresh], ?_, ?_, ?_, ?_⟩
          · rw [hw2, hw, List.append_assoc]
          · rw [hevs, hev2, List.map_append, List.map_cons, List.map_nil]
          · omega
          · intro w hwmem
            rcases List.mem_append.mp hwmem with hin | hin
            · obtain ⟨h1, h2⟩ := hb w hin
              omega
            · rw [List.mem_singleton] at hin
              subst hin
              omega

theorem evalL_ok_shape (ts : TplL) (s s' : ViewState) (cs : List DomNode)
    (evs : List Ev) (h : evalL ts s = (.ok (s', cs), evs)) :
    ∃ ws, s'.widgets = s.widgets ++ ws ∧ evs = ws.map Ev.constructed
      ∧ s.fresh ≤ s'.fresh ∧ ∀ w ∈ ws, s.fresh ≤ w ∧ w < s'.fresh := by
  cases ts with
  | nil =>
      simp only [evalL, Prod.mk.injEq, Except.ok.injEq] at h
      obtain ⟨⟨hs, -⟩, hev⟩ := h
      exact ⟨[], by simp [← hs, ← hev]⟩
  | cons t rest =>
      simp only [evalL] at h
      split at h
      · exact absurd h (by simp)
      · rename_i s1 c0 evs0 heqT
        split at h
        · exact absurd h (by simp)
        · rename_i s2 cs0 evs1 heqR
          rw [Prod.mk.injEq, Except.ok.injEq, Prod.mk.injEq] at h
          obtain ⟨⟨hs, -⟩, hev⟩ := h
          subst hs
          subst hev
          obtain ⟨ws0, hw0, hevs0, hf0, hb0⟩ := evalTpl_ok_shape t s s1 c0 evs0 heqT
          obtain ⟨ws1, hw1, hevs1, hf1, hb1⟩ := evalL_ok_shape rest s1 s2 cs0 evs1 heqR
          refine ⟨ws0 ++ ws1, ?_, ?_, hf0.trans hf1, ?_⟩
          · rw [hw1, hw0, List.append_assoc]
          · rw [hevs0, hevs1, List.map_append]
          · intro w hwmem
            rcases List.mem_append.mp hwmem with hin | hin
            · obtain ⟨h1, h2⟩ := hb0 w hin
              omega
            · obtain ⟨h1, h2⟩ := hb1 w hin
              omega

end

/-- Shape of one successful render pass: the event trace is exactly all
`removed` hooks of the outgoing widget list (in list order), then the
`constructed` events of the incoming widget list (in construction = push
order), then the `rendered` hooks of the incoming widget list; and every
incoming widget instance is allocated during this pass. -/
theorem render_ok_shape (tpl : Tpl) (s s₁ : ViewState) (t₁ : DomNode)
    (evs₁ : List Ev) (h : render tpl s = (.ok (s₁, t₁), evs₁)) :
    evs₁ = s.widgets.map Ev.removed ++ s₁.widgets.map Ev.constructed
      ++ s₁.widgets.map Ev.rendered
    ∧ (∀ w ∈ s₁.widgets, s.fresh ≤ w ∧ w < s₁.fresh) := by
  unfold render at h
  split at h
  · exact absurd h (by simp)
  · rename_i s1 tree tevs heq
    rw [Prod.mk.injEq, Except.ok.injEq, Prod.mk.injEq] at h
    obtain ⟨⟨hs, -⟩, hev⟩ := h
    obtain ⟨ws, hw, hevs, hf, hb⟩ :=
      evalTpl_ok_shape tpl (resetPass s) s1 tree tevs heq
    have hw' : s1.widgets = ws := by simpa [resetPass] using hw
    have hwidg : s₁.widgets = s1.widgets := by rw [← hs]; rfl
    have hfr : s₁.fresh = s1.fresh := by rw [← hs]; rfl
    constructor
    · rw [← hev, hevs, hwidg, hw']
    · intro w hwmem
      rw [hwidg, hw'] at hwmem
      obtain ⟨h1, h2⟩ := hb w hwmem
      have hfr0 : (resetPass s).fresh = s.fresh := rfl
      rw [hfr0] at h1
      rw [hfr]
      exact ⟨h1, h2⟩

/-! ## Claim C1 -/

/-- Claim C1: for every View and every two successive successful render passes,
the first pass's event trace is exactly the `removed` hooks of all outgoing
widgets (in widget-list order), then the construction events of all incoming
widgets (so every `removed` precedes every construction of the incoming
pass), then the `rendered` hooks of all incoming widgets (so `rendered` runs
only after the entire new tree has been built); the same holds for the second
pass; and the widget list after the second pass contains none of the widget
instances of the first pass. -/
theorem claim1_render_lifecycle (tpl tpl₂ : Tpl) (s s₁ s₂ : ViewState)
    (t₁ t₂ : DomNode) (evs₁ evs₂ : List Ev)
    (h₁ : render tpl s = (.ok (s₁, t₁), evs₁))
    (h₂ : render tpl₂ s₁ = (.ok (s₂, t₂), evs₂)) :
    evs₁ = s.widgets.map Ev.removed ++ s₁.widgets.map Ev.constructed
      ++ s₁.widgets.map Ev.rendered
    ∧ evs₂ = s₁.widgets.map Ev.removed ++ s₂.widgets.map Ev.constructed
      ++ s₂.widgets.map Ev.rendered
    ∧ ∀ w ∈ s₂.widgets, w ∉ s₁.widgets := by
  obtain ⟨he1, hb1⟩ := render_ok_shape tpl s s₁ t₁ evs₁ h₁
  obtain ⟨he2, hb2⟩ := render_ok_shape tpl₂ s₁ s₂ t₂ evs₂ h₂
  refine ⟨he1, he2, ?_⟩
  intro w hw2 hw1
  have hlt := (hb1 w hw1).2
  have hge := (hb2 w hw2).1
  omega

/-- A concrete template consisting of a single widget call. -/
def tplW : Tpl := .widgetT none none .nil "w"

def sW1 : ViewState :=
  match (render tplW initView).1 with
  | .ok p => p.1
  | .error _ => initView

def tW1 : DomNode :=
  match (render tplW initView).1 with
  | .ok p => p.2
  | .error _ => .textNode ""

def evsW1 : List Ev := (render tplW initView).2

def sW2 : ViewState :=
  match (render tplW sW1).1 with
  | .ok p => p.1
  | .error _ => initView

def tW2 : DomNode :=
  match (render tplW sW1).1 with
  | .ok p => p.2
  | .error _ => .textNode ""

def evsW2 : List Ev := (render tplW sW1).2

/-- Witness for C1: two successive renders of a one-widget template from a
fresh view; the first pass constructs and then renders widget instance 0, the
second pass removes it, constructs instance 1, and instance 1 was not in the
first pass's widget list. -/
theorem claim1_render_lifecycle_witness :
    evsW1 = [Ev.constructed 0, Ev.rendered 0]
    ∧ evsW2 = [Ev.removed 0, Ev.constructed 1, Ev.rendered 1]
    ∧ (1 : Nat) ∈ sW2.widgets ∧ (1 : Nat) ∉ sW1.widgets := by
  have h := claim1_render_lifecycle tplW tplW initView sW1 sW2 tW1 tW2
    evsW1 evsW2 rfl rfl
  exact ⟨h.1, h.2.1, by decide, h.2.2 1 (by decide)⟩

/-! ## Claim C2 -/

/-- Claim C2: after any successful `render()`, `findById "root"` is never
absent; and when the template did not explicitly register the identifier
`"root"` during evaluation, `"root"` resolves to the top-level produced
Content (the returned tree). -/
theorem claim2_root_identifier (tpl : Tpl) (s sm s₁ : ViewState) (t : DomNode)
    (evs tevs : List Ev)
    (h : render tpl s = (.ok (s₁, t), evs))
    (hm : evalTpl tpl (resetPass s) = (.ok (sm, t), tevs)) :
    (∃ v, findById s₁ "root" = some v)
    ∧ (getKey sm.ids "root" = none →
        findById s₁ "root" = some (.content t)) := by
  unfold render at h
  rw [hm] at h
  rw [Prod.mk.injEq, Except.ok.injEq, Prod.mk.injEq] at h
  obtain ⟨⟨hs, -⟩, -⟩ := h
  have hids : s₁.ids = setKey sm.ids "root"
      (match getKey sm.ids "root" with
       | some v => v
       | none => WMLElement.content t) := by
    rw [← hs]; rfl
  constructor
  · exact ⟨_, by rw [show findById s₁ "root" = getKey s₁.ids "root" from rfl,
      hids, getKey_setKey_self]⟩
  · intro hnone
    show getKey s₁.ids "root" = _
    rw [hids, getKey_setKey_self, hnone]

def smW : ViewState :=
  match (evalTpl tplW (resetPass initView)).1 with
  | .ok p => p.1
  | .error _ => initView

def tevsW : List Ev := (evalTpl tplW (resetPass initView)).2

/-- Witness for C2: rendering the one-widget template (which never registers
`"root"`) from a fresh view leaves `"root"` bound to the produced tree. -/
theorem claim2_root_identifier_witness :
    (∃ v, findById sW1 "root" = some v)
    ∧ findById sW1 "root" = some (.content tW1) := by
  have h := claim2_root_identifier tplW initView smW sW1 tW1 evsW1 tevsW rfl rfl
  exact ⟨h.1, h.2 rfl⟩

/-! ## Claims C3 and C10 -/

theorem register_fresh_eq (id : String) (w : WMLElement) (s : ViewState)
    (h : hasKey s.ids id = false) :
    register id w s = ({ s with ids := setKey s.ids id w }, none) := by
  simp [register, h]

/-- Bindings whose key is registered by no element of `ps` are untouched by
the whole `registerAll` sequence. -/
theorem registerAll_getKey_preserved (ps : List (String × WMLElement))
    (s : ViewState) (k : String) (h : ∀ p ∈ ps, p.1 ≠ k) :
    getKey (registerAll ps s).1.ids k = getKey s.ids k := by
  induction ps generalizing s with
  | nil => rfl
  | cons p rest ih =>
      obtain ⟨id, w⟩ := p
      unfold registerAll
      by_cases hdup : hasKey s.ids id = true
      · simp [register, hdup]
      · rw [register_fresh_eq id w s (by simpa using hdup)]
        simp only
        rw [ih _ (fun q hq => h q (List.mem_cons_of_mem _ hq))]
        exact getKey_setKey_ne _ _ _ _ (Ne.symm (h (id, w) (List.mem_cons_self _ _)))

theorem hasKey_setKey_mono {α : Type} (m : List (String × α)) (k k' : String)
    (v : α) (h : hasKey m k' = true) : hasKey (setKey m k v) k' = true := by
  by_cases hk : k' = k
  · subst hk
    exact hasKey_setKey_self m k' v
  · rw [hasKey_setKey_ne m k k' v hk]
    exact h

/-- A key present before a `registerAll` sequence is still present after it. -/
theorem registerAll_hasKey_mono (ps : List (String × WMLElement))
    (s : ViewState) (k : String) (h : hasKey s.ids k = true) :
    hasKey (registerAll ps s).1.ids k = true := by
  induction ps generalizing s with
  | nil => exact h
  | cons p rest ih =>
      obtain ⟨id, w⟩ := p
      unfold registerAll
      by_cases hdup : hasKey s.ids id = true
      · simp [register, hdup, h]
      · rw [register_fresh_eq id w s (by simpa using hdup)]
        simp only
        exact ih _ (hasKey_setKey_mono _ _ _ _ h)

/-- Claim C3: for every View and every sequence of `register(id, x)` calls
within one pass whose ids are pairwise distinct (and not already taken),
every call succeeds and returns the view (no exception is raised, so the
calls chain), `findById` afterwards returns exactly the value registered
under each id, and a further `register` with any id already present in the
pass's registry fails with the DuplicateIdentifier error. -/
theorem claim3_register_findById (s : ViewState)
    (ps : List (String × WMLElement))
    (hnodup : (ps.map Prod.fst).Nodup)
    (hfresh : ∀ p ∈ ps, hasKey s.ids p.1 = false) :
    (registerAll ps s).2 = none
    ∧ (∀ p ∈ ps, findById (registerAll ps s).1 p.1 = some p.2)
    ∧ (∀ p ∈ ps, ∀ w', (register p.1 w' (registerAll ps s).1).2
        = some (.duplicateId p.1)) := by
  induction ps generalizing s with
  | nil => exact ⟨rfl, by simp, by simp⟩
  | cons p rest ih =>
      obtain ⟨id, w⟩ := p
      rw [List.map_cons, List.nodup_cons] at hnodup
      obtain ⟨hnotin, hnodup'⟩ := hnodup
      have hfreshHead : hasKey s.ids id = false :=
        hfresh (id, w) (List.mem_cons_self _ _)
      have hstep : registerAll ((id, w) :: rest) s
          = registerAll rest { s with ids := setKey s.ids id w } := by
        unfold registerAll
        rw [register_fresh_eq id w s hfreshHead]
        simp only
        rw [registerAll.eq_def]
      have hfresh' : ∀ q ∈ rest,
          hasKey ({ s with ids := setKey s.ids id w } : ViewState).ids q.1 = false := by
        intro q hq
        have hne : q.1 ≠ id := by
          intro hcontra
          have hmem : q.1 ∈ List.map Prod.fst rest :=
            List.mem_map_of_mem Prod.fst hq
          rw [hcontra] at hmem
          exact hnotin hmem
        show hasKey (setKey s.ids id w) q.1 = false
        rw [hasKey_setKey_ne _ _ _ _ hne]
        exact hfresh q (List.mem_cons_of_mem _ hq)
      obtain ⟨h1, h2, h3⟩ := ih { s with ids := setKey s.ids id w } hnodup' hfresh'
      refine ⟨by rw [hstep]; exact h1, ?_, ?_⟩
      · intro q hq
        rcases List.mem_cons.mp hq with hhead | htail
        · subst hhead
          rw [hstep]
          show getKey (registerAll rest _).1.ids id = some w
          rw [registerAll_getKey_preserved rest _ id ?_]
          · exact getKey_setKey_self s.ids id w
          · intro q hq hcontra
            have hmem : q.1 ∈ List.map Prod.fst rest :=
              List.mem_map_of_mem Prod.fst hq
            rw [hcontra] at hmem
            exact hnotin hmem
        · rw [hstep]
          exact h2 q htail
      · intro q hq w'
        rcases List.mem_cons.mp hq with hhead | htail
        · subst hhead
          rw [hstep]
          have hpresent : hasKey (registerAll rest
              { s with ids := setKey s.ids id w }).1.ids id = true :=
            registerAll_hasKey_mono rest _ id (hasKey_setKey_self s.ids id w)
          simp [register, hpresent]
        · rw [hstep]
          exact h3 q htail w'

/-- Witness for C3: registering `"a"` and `"b"` on a fresh view succeeds,
`findById` returns the registered values, and re-registering `"a"` fails
with the duplicate-identifier error. -/
theorem claim3_register_findById_witness :
    (registerAll [("a", WMLElement.widgetRef 0), ("b", WMLElement.widgetRef 1)]
        initView).2 = none
    ∧ findById (registerAll [("a", WMLElement.widgetRef 0),
        ("b", WMLElement.widgetRef 1)] initView).1 "a"
        = some (WMLElement.widgetRef 0)
    ∧ (register "a" (WMLElement.widgetRef 5)
        (registerAll [("a", WMLElement.widgetRef 0),
          ("b", WMLElement.widgetRef 1)] initView).1).2
        = some (.duplicateId "a") := by
  have h := claim3_register_findById initView
    [("a", WMLElement.widgetRef 0), ("b", WMLElement.widgetRef 1)]
    (by decide) (by decide)
  exact ⟨h.1,
    h.2.1 ("a", WMLElement.widgetRef 0) (List.mem_cons_self _ _),
    h.2.2 ("a", WMLElement.widgetRef 0) (List.mem_cons_self _ _)
      (WMLElement.widgetRef 5)⟩

/-- Claim C10: a `register` call that fails with the duplicate-identifier error
leaves the View unchanged: the identifier registry (in particular the binding
of the colliding id), the group registry and the widget list are exactly as
before the call. -/
theorem claim10_register_atomic (s : ViewState) (id : String) (w : WMLElement)
    (h : hasKey s.ids id = true) :
    (register id w s).2 = some (.duplicateId id)
    ∧ (register id w s).1 = s
    ∧ (register id w s).1.ids = s.ids
    ∧ getKey (register id w s).1.ids id = getKey s.ids id
    ∧ (register id w s).1.groups = s.groups
    ∧ (register id w s).1.widgets = s.widgets := by
  simp [register, h]

def sDup : ViewState := { initView with ids := [("a", WMLElement.widgetRef 0)] }

/-- Witness for C10: re-registering `"a"` on a view that already has it
throws and leaves the state untouched. -/
theorem claim10_register_atomic_witness :
    (register "a" (WMLElement.widgetRef 7) sDup).2 = some (.duplicateId "a")
    ∧ (register "a" (WMLElement.widgetRef 7) sDup).1 = sDup
    ∧ getKey (register "a" (WMLElement.widgetRef 7) sDup).1.ids "a"
        = getKey sDup.ids "a" := by
  have h := claim10_register_atomic sDup "a" (WMLElement.widgetRef 7) (by decide)
  exact ⟨h.1, h.2.1, h.2.2.2.1⟩

/-! ## Claim C4 -/

/-- Claim C4, actual code behavior at the claimed inputs: `invalidate()` on a
View on which no `render()` has produced a tree fails with the engine's
TypeError raised by the `tree.parentNode` access — not with the NotRendered
ReferenceError of the line below it, which is unreachable; `invalidate()` on a
rendered View whose root has no host-container position fails with the
NotAttached error.  Both errors propagate to the caller. -/
theorem claim4_invalidate_errors :
    (invalidate tplW initView (fun _ => none)).1 = .error JsErr.jsTypeError
    ∧ JsErr.jsTypeError ≠ JsErr.notRendered
    ∧ render tplW initView = (.ok (sW1, tW1), evsW1)
    ∧ sW1.tree = some tW1
    ∧ (invalidate tplW sW1 (fun _ => none)).1 = .error JsErr.notAttached :=
  ⟨rfl, by decide, rfl, rfl, rfl⟩

/-! ## Claim C5 -/

/-- A concrete case thunk producing the text node `"A"`. -/
def thunkA : Unit → DomNode := fun _ => DomNode.textNode "A"

/-- A concrete case thunk producing the text node `"B"`. -/
def thunkB : Unit → DomNode := fun _ => DomNode.textNode "B"

/-- Claim C5, actual code behavior: `switchE` returns the matching case thunk
itself — the function, never its invocation result (`thunkA`, not
`thunkA ()`); with no matching case it returns the `default` thunk itself;
with neither it returns an absent value without raising. -/
theorem claim5_switchE_returns_thunk :
    switchE "x" [("x", thunkA), ("default", thunkB)] = some thunkA
    ∧ switchE "y" [("x", thunkA), ("default", thunkB)] = some thunkB
    ∧ switchE "y" [("x", thunkA)] = (none : Option (Unit → DomNode)) :=
  ⟨rfl, rfl, rfl⟩

/-! ## Claim C6 -/

/-- Sequential `frag.appendChild` composition of a list of produced nodes. -/
def flattenNodes (ns : List DomNode) : List DomNode :=
  ns.foldl appendChild []

/-- A concrete empty-case thunk producing an (element) node. -/
def emptyDiv : Unit → DomNode := fun _ => DomNode.element "div" [] [] []

/-- A concrete item callback: wraps the item in an element recording the
index/key it was called with. -/
def cbPair : DomNode → SIdx → JsColl DomNode → DomNode := fun n i _ =>
  match i with
  | .num k => DomNode.element "idx" [] [("i", k)] [n]
  | .str s => DomNode.element s [] [] [n]

/-- A concrete item callback that ignores everything. -/
def cbZero : DomNode → SIdx → JsColl DomNode → DomNode :=
  fun _ _ _ => DomNode.textNode "z"

/-- Claim C6 counterexample: `forE([], cb, emptyThunk)` does not return
`emptyThunk()`'s result: it returns a fresh fragment wrapping that result
(`frag.appendChild(cb2()); return frag`). -/
theorem claim6_forE_counterexample :
    forE (JsColl.arr ([] : List DomNode)) cbZero emptyDiv ≠ emptyDiv () :=
  fun h => DomNode.noConfusion h

/-- Claim C6 as amended: `forE` on an empty sequence (or a keyed mapping with no
keys) invokes `emptyThunk` exactly once and returns a fragment wrapping its
invocation result (its result is independent of `cb`, which is never
invoked); on a non-empty sequence it invokes `cb` once per element in source
order with indices `0, 1, 2, ...` and composes the per-element results into
one fragment preserving iteration order; on a non-empty keyed mapping it
invokes `cb(value, key, collection)` once per entry in key-enumeration order
with the same composition. -/
theorem claim6_forE (V : Type) (xs : List V) (kvs : List (String × V))
    (cb cb' : V → SIdx → JsColl V → DomNode) (t : Unit → DomNode) :
    (forE (JsColl.arr ([] : List V)) cb t
        = .fragment (appendChild [] (t ())))
    ∧ (forE (JsColl.arr ([] : List V)) cb t = forE (JsColl.arr []) cb' t)
    ∧ (xs ≠ [] → forE (JsColl.arr xs) cb t
        = .fragment (flattenNodes (xs.enum.map
            (fun p => cb p.2 (SIdx.num p.1) (JsColl.arr xs)))))
    ∧ (forE (JsColl.obj ([] : List (String × V))) cb t
        = .fragment (appendChild [] (t ())))
    ∧ (forE (JsColl.obj ([] : List (String × V))) cb t
        = forE (JsColl.obj []) cb' t)
    ∧ (kvs ≠ [] → forE (JsColl.obj kvs) cb t
        = .fragment (flattenNodes (kvs.map
            (fun p => cb p.2 (SIdx.str p.1) (JsColl.obj kvs))))) := by
  refine ⟨rfl, rfl, ?_, rfl, rfl, ?_⟩
  · intro hne
    have hlen : xs.length > 0 := List.length_pos.mpr hne
    simp only [forE, if_pos hlen, flattenNodes, List.foldl_map]
  · intro hne
    have hlen : (kvs.map Prod.fst).length > 0 := by
      rw [List.length_map]
      exact List.length_pos.mpr hne
    simp only [forE, if_pos hlen, flattenNodes, List.foldl_map]

/-- Witness for C6 at `[a, b, c]` and at the empty array. -/
theorem claim6_forE_witness :
    forE (JsColl.arr [DomNode.textNode "a", DomNode.textNode "b",
        DomNode.textNode "c"]) cbPair emptyDiv
      = DomNode.fragment
          [DomNode.element "idx" [] [("i", 0)] [DomNode.textNode "a"],
           DomNode.element "idx" [] [("i", 1)] [DomNode.textNode "b"],
           DomNode.element "idx" [] [("i", 2)] [DomNode.textNode "c"]]
    ∧ forE (JsColl.arr ([] : List DomNode)) cbPair emptyDiv
      = DomNode.fragment [DomNode.element "div" [] [] []] := by
  have h := claim6_forE DomNode
    [DomNode.textNode "a", DomNode.textNode "b", DomNode.textNode "c"]
    [("k", DomNode.textNode "a")] cbPair cbPair emptyDiv
  have h3 := h.2.2.1 (by simp)
  exact ⟨h3.trans rfl, h.1.trans rfl⟩

/-! ## Claim C7 -/

/-- Claim C7, actual code behavior: adopting a primitive child appends a text
node and then — missing `break` — falls through into
`e.appendChild(<Node>child)` with the raw primitive, which the DOM rejects
with a TypeError; a `null` or array child (`typeof` `'object'`) is passed raw
to `appendChild`, which likewise throws, so null is not skipped and arrays
are not flattened; only an already-built node is adopted successfully;
`undefined` raises the explicit adoption TypeError.  The earlier snapshot's
`adoptV1` implements the claimed behavior: primitives become text children,
null is skipped, arrays are flattened recursively. -/
theorem claim7_adopt_fall_through :
    adopt (JsVal.str "hello") [] = .error JsErr.jsTypeError
    ∧ adopt (JsVal.num 3) [] = .error JsErr.jsTypeError
    ∧ adopt JsVal.nullV [] = .error JsErr.jsTypeError
    ∧ adopt (JsVal.arr [JsVal.node (DomNode.textNode "a")]) []
        = .error JsErr.jsTypeError
    ∧ adopt (JsVal.node (DomNode.textNode "a")) [] = .ok [DomNode.textNode "a"]
    ∧ adopt JsVal.undef [] = .error JsErr.adoptionError
    ∧ adoptV1 (JsVal.str "hello") [] = [DomNode.textNode "hello"]
    ∧ adoptV1 JsVal.nullV [] = []
    ∧ adoptV1 (JsVal.arr [JsVal.node (DomNode.textNode "a"), JsVal.str "b"]) []
        = [DomNode.textNode "a", DomNode.textNode "b"] :=
  ⟨rfl, rfl, rfl, rfl, rfl, rfl, rfl, rfl, rfl⟩

/-! ## Claim C8 -/

/-- What the claim asserts per `html` entry about the finished element's
attribute/handler tables: callables are attached as handlers; non-empty
strings are set as literal attributes; the empty string sets nothing at all;
booleans are set stringified. -/
def attrSpec (final : List (String × String) × List (String × Nat))
    (k : String) : HtmlVal → Prop
  | .funcV f => getKey final.2 k = some f
  | .strV sv =>
      if sv = "" then getKey final.1 k = none ∧ getKey final.2 k = none
      else getKey final.1 k = some sv
  | .boolV b => getKey final.1 k = some (if b then "true" else "false")
  | .numV _ => True

theorem buildHtmlStep_getKey_ne
    (acc : List (String × String) × List (String × Nat))
    (kv : String × HtmlVal) (k : String) (h : kv.1 ≠ k) :
    getKey (buildHtmlStep acc kv).1 k = getKey acc.1 k
    ∧ getKey (buildHtmlStep acc kv).2 k = getKey acc.2 k := by
  obtain ⟨key, v⟩ := kv
  cases v with
  | strV sv =>
      by_cases hsv : sv = ""
      · subst hsv
        exact ⟨rfl, rfl⟩
      · rw [show buildHtmlStep acc (key, HtmlVal.strV sv)
            = (setKey acc.1 key sv, acc.2) from by simp [buildHtmlStep, hsv]]
        exact ⟨getKey_setKey_ne _ _ _ _ (Ne.symm h), rfl⟩
  | numV n => exact ⟨rfl, rfl⟩
  | boolV b => exact ⟨getKey_setKey_ne _ _ _ _ (Ne.symm h), rfl⟩
  | funcV f => exact ⟨rfl, getKey_setKey_ne _ _ _ _ (Ne.symm h)⟩

theorem buildHtml_foldl_notmem (html : List (String × HtmlVal))
    (acc : List (String × String) × List (String × Nat)) (k : String)
    (h : k ∉ html.map Prod.fst) :
    getKey (html.foldl buildHtmlStep acc).1 k = getKey acc.1 k
    ∧ getKey (html.foldl buildHtmlStep acc).2 k = getKey acc.2 k := by
  induction html generalizing acc with
  | nil => exact ⟨rfl, rfl⟩
  | cons kv rest ih =>
      rw [List.map_cons] at h
      have hne : kv.1 ≠ k := fun hc => h (hc ▸ List.mem_cons_self _ _)
      have hrest : k ∉ rest.map Prod.fst := fun hc => h (List.mem_cons_of_mem _ hc)
      obtain ⟨h1, h2⟩ := buildHtmlStep_getKey_ne acc kv k hne
      obtain ⟨h3, h4⟩ := ih (buildHtmlStep acc kv) hrest
      exact ⟨h3.trans h1, h4.trans h2⟩

theorem buildHtml_foldl_mem (html : List (String × HtmlVal))
    (acc : List (String × String) × List (String × Nat)) (k : String)
    (v : HtmlVal) (hmem : (k, v) ∈ html)
    (hnodup : (html.map Prod.fst).Nodup)
    (hacc1 : getKey acc.1 k = none) (hacc2 : getKey acc.2 k = none) :
    attrSpec (html.foldl buildHtmlStep acc) k v := by
  induction html generalizing acc with
  | nil => exact absurd hmem (List.not_mem_nil _)
  | cons kv rest ih =>
      rw [List.map_cons, List.nodup_cons] at hnodup
      obtain ⟨hnotin, hnodup'⟩ := hnodup
      rcases List.mem_cons.mp hmem with hhead | htail
      · have hknotin : k ∉ rest.map Prod.fst := by
          rw [← hhead] at hnotin
          exact hnotin
        obtain ⟨h1, h2⟩ :=
          buildHtml_foldl_notmem rest (buildHtmlStep acc kv) k hknotin
        rw [List.foldl_cons]
        subst hhead
        cases v with
        | strV sv =>
            by_cases hsv : sv = ""
            · subst hsv
              show (getKey _ k = none ∧ getKey _ k = none)
              rw [h1, h2]
              exact ⟨hacc1, hacc2⟩
            · show attrSpec _ k (HtmlVal.strV sv)
              simp only [attrSpec, if_neg hsv]
              rw [show buildHtmlStep acc (k, HtmlVal.strV sv)
                  = (setKey acc.1 k sv, acc.2) from by simp [buildHtmlStep, hsv]] at h1 ⊢
              rw [h1]
              exact getKey_setKey_self _ _ _
        | numV n => trivial
        | boolV b =>
            show getKey _ k = some (if b then "true" else "false")
            rw [h1]
            exact getKey_setKey_self _ _ _
        | funcV f =>
            show getKey _ k = some f
            rw [h2]
            exact getKey_setKey_self _ _ _
      · have hne : kv.1 ≠ k := by
          intro hc
          have : k ∈ rest.map Prod.fst := List.mem_map_of_mem Prod.fst htail
          rw [← hc] at this
          exact hnotin this
        obtain ⟨h1, h2⟩ := buildHtmlStep_getKey_ne acc kv k hne
        rw [List.foldl_cons]
        exact ih (buildHtmlStep acc kv) htail hnodup' (h1.trans hacc1)
          (h2.trans hacc2)

/-- Claim C8: building an element applies its `html` attribute map so that
callable values are attached as live handler properties, non-empty string
values become literal attributes, empty-string values set nothing at all, and
boolean values become attributes holding their stringified form. -/
theorem claim8_node_html_attrs (tag : String) (html : List (String × HtmlVal))
    (s : ViewState) (hnodup : (html.map Prod.fst).Nodup) :
    nodeF tag html none none [] s
      = .ok (s, DomNode.element tag (buildHtml html).1 (buildHtml html).2 [])
    ∧ ∀ k v, (k, v) ∈ html → attrSpec (buildHtml html) k v := by
  refine ⟨rfl, ?_⟩
  intro k v hmem
  exact buildHtml_foldl_mem html ([], []) k v hmem hnodup rfl rfl

/-- The `html` bag of the claim's examples: a handler, a normal string
attribute, the suppressed `disabled: ""`, and `checked: true`. -/
def htmlW : List (String × HtmlVal) :=
  [("onclick", .funcV 3), ("title", .strV "hi"), ("disabled", .strV ""),
   ("checked", .boolV true)]

/-- Witness for C8: on the concrete bag, `onclick` is attached as a handler,
`title` is a literal attribute, `disabled` is not set at all, and `checked`
holds the string `"true"`. -/
theorem claim8_node_html_attrs_witness :
    nodeF "input" htmlW none none [] initView
      = .ok (initView,
          DomNode.element "input" (buildHtml htmlW).1 (buildHtml htmlW).2 [])
    ∧ getKey (buildHtml htmlW).2 "onclick" = some 3
    ∧ getKey (buildHtml htmlW).1 "title" = some "hi"
    ∧ getKey (buildHtml htmlW).1 "disabled" = none
    ∧ getKey (buildHtml htmlW).1 "checked" = some "true" := by
  have h := claim8_node_html_attrs "input" htmlW initView (by decide)
  refine ⟨h.1, ?_, ?_, ?_, ?_⟩
  · exact h.2 "onclick" (.funcV 3) (by simp [htmlW])
  · exact h.2 "title" (.strV "hi") (by simp [htmlW])
  · exact (h.2 "disabled" (.strV "") (by simp [htmlW])).1
  · exact h.2 "checked" (.boolV true) (by simp [htmlW])

/-! ## Claim C9 -/

/-- The attribute bag `{a: {b: 5}}` of the claim's examples. -/
def exObj9 : JVal := .obj [("a", .obj [("b", .num 5)])]

/-- Claim C9 counterexample: with no `defaultValue` supplied, `read` on an
absent leaf returns an absent value (`undefined`) — not the empty string the
claim asserts. -/
theorem claim9_read_counterexample :
    read "a:c" exObj9 none = none
    ∧ read "a:c" exObj9 none ≠ some (JVal.str "") :=
  ⟨rfl, fun h => Option.noConfusion h⟩

/-- Claim C9 as amended: `read` returns the resolved value when it is present
and non-null, otherwise the supplied `defaultValue`, otherwise an absent
value (`undefined`) — not the empty string; it never raises even when an
intermediate path segment is absent (the examples of the claim hold).  The
earlier snapshot's `Attributes.read` is the variant that falls back to the
empty string when no (non-null) default is supplied. -/
theorem claim9_read (path : String) (o : JVal) (d : Option JVal) (v : JVal) :
    (propertyGet (pathSegs path) o = some v → v ≠ JVal.null →
        read path o d = some v)
    ∧ (propertyGet (pathSegs path) o = none → read path o d = d)
    ∧ (propertyGet (pathSegs path) o = some JVal.null → read path o d = d)
    ∧ read "a:b" exObj9 none = some (JVal.num 5)
    ∧ read "a:c" exObj9 (some (JVal.str "fallback")) = some (JVal.str "fallback")
    ∧ (attributesRead path o d).isSome = true
    ∧ (read path o d = none → attributesRead path o d = some (JVal.str "")) := by
  refine ⟨?_, ?_, ?_, rfl, rfl, ?_, ?_⟩
  · intro hp hv
    unfold read
    rw [hp]
    cases v with
    | null => exact absurd rfl hv
    | str s => rfl
    | num n => rfl
    | boolV b => rfl
    | obj kvs => rfl
  · intro hp
    unfold read
    rw [hp]
  · intro hp
    unfold read
    rw [hp]
  · unfold attributesRead
    split <;> first | rfl | (split <;> rfl)
  · intro h
    unfold read at h
    unfold attributesRead
    split at h
    · rename_i heq
      rw [heq]
      subst h
      rfl
    · exact absurd h (by simp)
    · rename_i heq
      rw [heq]
      subst h
      rfl

/-- Witness for C9: `read("a:b", {a:{b:5}})` resolves to `5`;
`read("x:y", {a:{b:5}}, fallback)` returns the fallback without raising. -/
theorem claim9_read_witness :
    read "a:b" exObj9 none = some (JVal.num 5)
    ∧ read "x:y" exObj9 (some (JVal.str "f")) = some (JVal.str "f")
    ∧ (attributesRead "a:c" exObj9 none).isSome = true := by
  have h1 := claim9_read "a:b" exObj9 none (JVal.num 5)
  have h2 := claim9_read "x:y" exObj9 (some (JVal.str "f")) JVal.null
  have h3 := claim9_read "a:c" exObj9 none JVal.null
  exact ⟨h1.1 rfl (fun hc => JVal.noConfusion hc), h2.2.1 rfl,
    h3.2.2.2.2.2.1⟩

end Wml

